import Mathlib

/-!
Verification of the dataset-acquisition and encoding logic of the
IST407/707 lecture notebooks.

The first part embeds `load_housing_data` from
`2-week2/2-problem-data-eda.ipynb`:

    def load_housing_data():
        tarball_path = Path("data/housing.tgz")
        if not tarball_path.is_file():
            Path("data").mkdir(parents=True, exist_ok=True)
            url = "https://github.com/ageron/data/raw/main/housing.tgz"
            urllib.request.urlretrieve(url, tarball_path)
            with tarfile.open(tarball_path) as housing_tarball:
                housing_tarball.extractall(path="data")
        return pd.read_csv(Path("data/housing/housing.csv"))

The filesystem and the external effects (network fetch, archive
extraction, directory creation, CSV parse) are modelled by an explicit
environment of flags; a run returns the outcome together with the
resulting environment and the number of fetch / extract / mkdir
effects it performed.
-/

/-- Error kinds surfaced by the acquisition routine (spec section 7 taxonomy,
plus the Python FileNotFoundError that pd.read_csv raises when the CSV
file is absent). -/
inductive AcqError where
  | NetworkError
  | ExtractionError
  | FilesystemError
  | ParseError
  | FileNotFoundError
  deriving DecidableEq, Repr

/-- The filesystem / external-world state visible to `load_housing_data`:
which files exist, and whether each external effect would succeed if
attempted.  `csvWellFormed` says whether the CSV that is (or, after
extraction, would be) at `data/housing/housing.csv` parses. -/
structure Env where
  tgzOnDisk : Bool
  csvOnDisk : Bool
  dataDirOnDisk : Bool
  mkdirOk : Bool
  fetchOk : Bool
  extractOk : Bool
  csvWellFormed : Bool
  deriving DecidableEq, Repr

/-- Outcome of one call: the returned table path or the error, the
resulting environment, and how many fetches, extractions and directory
creations were performed. -/
structure RunResult where
  result : Except AcqError String
  env : Env
  fetchCount : Nat
  extractCount : Nat
  mkdirCount : Nat

def tarball_path : String := "data/housing.tgz"

def housing_csv_path : String := "data/housing/housing.csv"

/-- pd.read_csv on `data/housing/housing.csv`: FileNotFoundError when the
file is absent, ParseError when present but malformed, otherwise the
parsed table (identified by its path). -/
def readTable (e : Env) : Except AcqError String :=
  if e.csvOnDisk then
    if e.csvWellFormed then Except.ok housing_csv_path else Except.error AcqError.ParseError
  else Except.error AcqError.FileNotFoundError

/-- `load_housing_data`, step for step: test `data/housing.tgz`; on a miss
mkdir `data`, fetch the archive, extract it into `data`; in either case
finish by parsing `data/housing/housing.csv`.  Errors of each step
propagate immediately: nothing is retried or recovered. -/
def load_housing_data (e : Env) : RunResult :=
  if e.tgzOnDisk then
    { result := readTable e, env := e, fetchCount := 0, extractCount := 0, mkdirCount := 0 }
  else if e.mkdirOk = false then
    { result := Except.error AcqError.FilesystemError, env := e,
      fetchCount := 0, extractCount := 0, mkdirCount := 1 }
  else
    let e1 : Env := { e with dataDirOnDisk := true }
    if e.fetchOk = false then
      { result := Except.error AcqError.NetworkError, env := e1,
        fetchCount := 1, extractCount := 0, mkdirCount := 1 }
    else
      let e2 : Env := { e1 with tgzOnDisk := true }
      if e.extractOk = false then
        { result := Except.error AcqError.ExtractionError, env := e2,
          fetchCount := 1, extractCount := 0, mkdirCount := 1 }
      else
        let e3 : Env := { e2 with csvOnDisk := true }
        { result := readTable e3, env := e3,
          fetchCount := 1, extractCount := 1, mkdirCount := 1 }

/-- A fresh environment: no files on disk, every external effect able to
succeed, the remote archive's CSV well formed. -/
def freshEnv : Env :=
  { tgzOnDisk := false, csvOnDisk := false, dataDirOnDisk := false,
    mkdirOk := true, fetchOk := true, extractOk := true, csvWellFormed := true }

theorem load_result_ok_tgz (e : Env) (p : String)
    (h : (load_housing_data e).result = Except.ok p) :
    (load_housing_data e).env.tgzOnDisk = true := by
  by_cases h1 : e.tgzOnDisk = true
  · simp [load_housing_data, h1]
  · simp only [Bool.not_eq_true] at h1
    by_cases h2 : e.mkdirOk = false
    · simp [load_housing_data, h1, h2] at h
    · by_cases h3 : e.fetchOk = false
      · simp [load_housing_data, h1, h2, h3] at h
      · by_cases h4 : e.extractOk = false
        · simp [load_housing_data, h1, h2, h3, h4] at h
        · simp [load_housing_data, h1, h2, h3, h4]

/-- Claim C1: when the cache file `data/housing.tgz` exists (and the
extracted CSV is present and well formed), a call performs zero fetches
and zero extractions and returns the same table path as a fresh run;
moreover after any successful call, the next call performs no network
fetch and no extraction. -/
theorem cache_hit_no_network (e e0 : Env)
    (htgz : e.tgzOnDisk = true) (hcsv : e.csvOnDisk = true)
    (hwf : e.csvWellFormed = true)
    (hfirst : (load_housing_data e0).result = Except.ok housing_csv_path) :
    (load_housing_data e).fetchCount = 0 ∧
    (load_housing_data e).extractCount = 0 ∧
    (load_housing_data e).result = (load_housing_data freshEnv).result ∧
    (load_housing_data (load_housing_data e0).env).fetchCount = 0 ∧
    (load_housing_data (load_housing_data e0).env).extractCount = 0 := by
  have h0 := load_result_ok_tgz e0 housing_csv_path hfirst
  refine ⟨?_, ?_, ?_, ?_, ?_⟩
  · simp [load_housing_data, htgz]
  · simp [load_housing_data, htgz]
  · simp [load_housing_data, freshEnv, readTable, htgz, hcsv, hwf]
  · generalize hE : (load_housing_data e0).env = e1 at h0 ⊢
    simp [load_housing_data, h0]
  · generalize hE : (load_housing_data e0).env = e1 at h0 ⊢
    simp [load_housing_data, h0]

theorem cache_hit_no_network_witness :
    (load_housing_data (load_housing_data freshEnv).env).fetchCount = 0 := by
  have h := cache_hit_no_network (load_housing_data freshEnv).env freshEnv
    (by decide) (by decide) (by decide) rfl
  exact h.2.2.2.1

/-- Claim C2: on a fresh environment (no cache file) with every external
effect succeeding, the routine creates the data directory, performs
exactly one fetch and one extraction, leaves the cache file on disk, and
returns the path of the extracted CSV. -/
theorem cache_miss_fetch_extract (e : Env)
    (h1 : e.tgzOnDisk = false) (h2 : e.mkdirOk = true) (h3 : e.fetchOk = true)
    (h4 : e.extractOk = true) (h5 : e.csvWellFormed = true) :
    (load_housing_data e).fetchCount = 1 ∧
    (load_housing_data e).extractCount = 1 ∧
    (load_housing_data e).mkdirCount = 1 ∧
    (load_housing_data e).env.dataDirOnDisk = true ∧
    (load_housing_data e).env.tgzOnDisk = true ∧
    (load_housing_data e).result = Except.ok housing_csv_path := by
  simp [load_housing_data, readTable, h1, h2, h3, h4, h5]

theorem cache_miss_fetch_extract_witness :
    (load_housing_data freshEnv).fetchCount = 1 ∧
    (load_housing_data freshEnv).extractCount = 1 ∧
    (load_housing_data freshEnv).mkdirCount = 1 ∧
    (load_housing_data freshEnv).env.dataDirOnDisk = true ∧
    (load_housing_data freshEnv).env.tgzOnDisk = true ∧
    (load_housing_data freshEnv).result = Except.ok housing_csv_path :=
  cache_miss_fetch_extract freshEnv rfl rfl rfl rfl rfl

/-- Claim C3: a file existing at the cache path is, by itself, taken as a
valid cache: whatever file is there (partial or corrupt included), the
routine fetches nothing, extracts nothing, changes nothing on disk, and
its result does not depend on whether the network, the archive, or
directory creation would succeed. -/
theorem cache_validity_is_existence (e : Env) (b c d : Bool)
    (htgz : e.tgzOnDisk = true) :
    (load_housing_data e).fetchCount = 0 ∧
    (load_housing_data e).extractCount = 0 ∧
    (load_housing_data e).mkdirCount = 0 ∧
    (load_housing_data e).env = e ∧
    (load_housing_data { e with mkdirOk := b, fetchOk := c, extractOk := d }).result =
      (load_housing_data e).result := by
  refine ⟨?_, ?_, ?_, ?_, ?_⟩ <;>
    simp [load_housing_data, readTable, htgz]

theorem cache_validity_is_existence_witness :
    (load_housing_data { freshEnv with tgzOnDisk := true }).fetchCount = 0 ∧
    (load_housing_data { { freshEnv with tgzOnDisk := true } with
        mkdirOk := false, fetchOk := false, extractOk := false }).result =
      (load_housing_data { freshEnv with tgzOnDisk := true }).result := by
  have h := cache_validity_is_existence { freshEnv with tgzOnDisk := true }
    false false false rfl
  exact ⟨h.1, h.2.2.2.2⟩

/-- Claim C4: on a cache miss the routine fails with FilesystemError when
directory creation is denied, with NetworkError when the fetch cannot
complete, and with ExtractionError when extraction fails; each error is
the routine's whole outcome (no recovery), and no step is ever retried:
every run performs at most one fetch and at most one extraction. -/
theorem acquisition_error_kinds (e : Env) (h : e.tgzOnDisk = false) :
    (e.mkdirOk = false →
      (load_housing_data e).result = Except.error AcqError.FilesystemError) ∧
    (e.mkdirOk = true → e.fetchOk = false →
      (load_housing_data e).result = Except.error AcqError.NetworkError) ∧
    (e.mkdirOk = true → e.fetchOk = true → e.extractOk = false →
      (load_housing_data e).result = Except.error AcqError.ExtractionError) ∧
    (load_housing_data e).fetchCount ≤ 1 ∧
    (load_housing_data e).extractCount ≤ 1 := by
  refine ⟨?_, ?_, ?_, ?_, ?_⟩
  · intro h1; simp [load_housing_data, h, h1]
  · intro h1 h2; simp [load_housing_data, h, h1, h2]
  · intro h1 h2 h3; simp [load_housing_data, h, h1, h2, h3]
  · by_cases h1 : e.mkdirOk = false <;> by_cases h2 : e.fetchOk = false <;>
      by_cases h3 : e.extractOk = false <;>
      simp [load_housing_data, h, h1, h2, h3]
  · by_cases h1 : e.mkdirOk = false <;> by_cases h2 : e.fetchOk = false <;>
      by_cases h3 : e.extractOk = false <;>
      simp [load_housing_data, h, h1, h2, h3]

theorem acquisition_error_kinds_witness :
    (load_housing_data { freshEnv with fetchOk := false }).result =
      Except.error AcqError.NetworkError :=
  (acquisition_error_kinds { freshEnv with fetchOk := false } rfl).2.1 rfl rfl

/-- Claim C9: the cache test looks at `data/housing.tgz`, not at the
extracted CSV: when the archive file exists but `data/housing/housing.csv`
does not, the routine fetches nothing and extracts nothing and then fails
at the parse step with a file-not-found error instead of repairing the
cache. -/
theorem stale_cache_not_repaired (e : Env)
    (htgz : e.tgzOnDisk = true) (hcsv : e.csvOnDisk = false) :
    (load_housing_data e).fetchCount = 0 ∧
    (load_housing_data e).extractCount = 0 ∧
    (load_housing_data e).result = Except.error AcqError.FileNotFoundError := by
  refine ⟨?_, ?_, ?_⟩ <;> simp [load_housing_data, readTable, htgz, hcsv]

theorem stale_cache_not_repaired_witness :
    (load_housing_data { freshEnv with tgzOnDisk := true }).fetchCount = 0 ∧
    (load_housing_data { freshEnv with tgzOnDisk := true }).extractCount = 0 ∧
    (load_housing_data { freshEnv with tgzOnDisk := true }).result =
      Except.error AcqError.FileNotFoundError :=
  stale_cache_not_repaired { freshEnv with tgzOnDisk := true } rfl rfl

/-!
One-hot encoding (`3-week3/4-encoding.ipynb`).  The notebook delegates to
sklearn's OneHotEncoder (`encoder.fit_transform(df[['Color']])`), an
external collaborator.
-/

/-- Modelled from the spec: sklearn's OneHotEncoder, an external library
the notebook calls; "representing a categorical value as a vector with
exactly one 1 at the position of its category and 0 elsewhere". -/
def oneHotRow (categories : List String) (v : String) : List Nat :=
  categories.map (fun c => if c = v then 1 else 0)

/-- Modelled from the spec: OneHotEncoder.fit_transform with a fixed
category set, applied to a whole column. -/
def oneHotEncode (categories : List String) (xs : List String) : List (List Nat) :=
  xs.map (oneHotRow categories)

/-- Index of the first entry equal to 1, if any. -/
def idxOfOne : List Nat → Option Nat
  | [] => none
  | x :: xs => if x = 1 then some 0 else (idxOfOne xs).map (fun i => i + 1)

/-- Modelled from the spec: decoding a one-hot row by "locating the column
holding the 1". -/
def decodeOneHotRow (categories : List String) (row : List Nat) : Option String :=
  match idxOfOne row with
  | some i => categories[i]?
  | none => none

theorem oneHotRow_count_zero (categories : List String) (v : String)
    (h : v ∉ categories) : (oneHotRow categories v).count 1 = 0 := by
  induction categories with
  | nil => rfl
  | cons c cs ih =>
    simp only [List.mem_cons, not_or] at h
    have hc : ¬ c = v := fun hcv => h.1 hcv.symm
    simp [oneHotRow, List.count_cons, hc] at ih ⊢
    exact ih h.2

theorem oneHotRow_count_one (categories : List String) (v : String)
    (hnd : categories.Nodup) (hv : v ∈ categories) :
    (oneHotRow categories v).count 1 = 1 := by
  induction categories with
  | nil => cases hv
  | cons c cs ih =>
    rw [List.nodup_cons] at hnd
    by_cases hc : c = v
    · subst hc
      have : (oneHotRow cs c).count 1 = 0 := oneHotRow_count_zero cs c hnd.1
      simp [oneHotRow, List.count_cons] at this ⊢
      exact this
    · have hv' : v ∈ cs := by
        cases hv with
        | head => exact absurd rfl hc
        | tail _ h => exact h
      have := ih hnd.2 hv'
      simp [oneHotRow, List.count_cons, hc] at this ⊢
      exact this

theorem idxOfOne_oneHotRow (categories : List String) (v : String)
    (hv : v ∈ categories) :
    ∃ i, idxOfOne (oneHotRow categories v) = some i ∧ categories[i]? = some v := by
  induction categories with
  | nil => cases hv
  | cons c cs ih =>
    by_cases hc : c = v
    · exact ⟨0, by simp [oneHotRow, idxOfOne, hc], by simp [hc]⟩
    · have hv' : v ∈ cs := by
        cases hv with
        | head => exact absurd rfl hc
        | tail _ h => exact h
      obtain ⟨i, hi, hget⟩ := ih hv'
      refine ⟨i + 1, ?_, by simpa using hget⟩
      have hstep : idxOfOne (oneHotRow (c :: cs) v) =
          (idxOfOne (oneHotRow cs v)).map (fun j => j + 1) := by
        simp [oneHotRow, idxOfOne, hc]
      rw [hstep, hi]
      rfl

/-- Claim C5: over a fixed, duplicate-free category set covering every
input value, one-hot encoding yields one binary column per category
(each row has one entry per category, every entry 0 or 1, and exactly
one entry equal to 1), and locating the column holding the 1 recovers
each row's original value: decoding after encoding is the identity. -/
theorem one_hot_round_trip (categories : List String) (xs : List String)
    (hnd : categories.Nodup) (hmem : ∀ v ∈ xs, v ∈ categories) :
    (∀ row ∈ oneHotEncode categories xs,
        row.length = categories.length ∧
        row.count 1 = 1 ∧
        ∀ x ∈ row, x = 0 ∨ x = 1) ∧
    (∀ v ∈ xs, decodeOneHotRow categories (oneHotRow categories v) = some v) ∧
    (oneHotEncode categories xs).map (decodeOneHotRow categories) = xs.map some := by
  have hdec : ∀ v ∈ xs, decodeOneHotRow categories (oneHotRow categories v) = some v := by
    intro v hv
    obtain ⟨i, hi, hget⟩ := idxOfOne_oneHotRow categories v (hmem v hv)
    simp [decodeOneHotRow, hi, hget]
  refine ⟨?_, hdec, ?_⟩
  · intro row hrow
    simp only [oneHotEncode, List.mem_map] at hrow
    obtain ⟨v, hv, rfl⟩ := hrow
    refine ⟨by simp [oneHotRow], oneHotRow_count_one categories v hnd (hmem v hv), ?_⟩
    intro x hx
    simp only [oneHotRow, List.mem_map] at hx
    obtain ⟨c, _, rfl⟩ := hx
    by_cases hc : c = v <;> simp [hc]
  · simp only [oneHotEncode, List.map_map]
    apply List.map_congr_left
    intro v hv
    exact hdec v hv

theorem one_hot_round_trip_witness :
    decodeOneHotRow ["blue", "green", "red"]
        (oneHotRow ["blue", "green", "red"] "green") = some "green" :=
  ((one_hot_round_trip ["blue", "green", "red"] ["green"]
      (by decide) (by decide)).2.1 "green" (by decide))

/-- Claim C6: one-hot encoding the input `["red","blue","green","red"]`
over the alphabetical category set `["blue","green","red"]` produces the
rows `[0,0,1]`, `[1,0,0]`, `[0,1,0]`, `[0,0,1]` in that order. -/
theorem one_hot_concrete :
    oneHotEncode ["blue", "green", "red"] ["red", "blue", "green", "red"] =
      [[0, 0, 1], [1, 0, 0], [0, 1, 0], [0, 0, 1]] := by
  decide

/-!
CSV parsing.  `load_housing_data` ends in
`pd.read_csv(Path("data/housing/housing.csv"))`; pd.read_csv is an
external library call, modelled from the spec at the character level:
a file is split into lines, the first line is the header naming the
columns in order, and every later line is one data row; lines split on
commas into fields.
-/

def splitOnChar (sep : Char) : List Char → List (List Char)
  | [] => [[]]
  | c :: cs =>
    match splitOnChar sep cs with
    | [] => [[]]
    | r :: rs => if c = sep then [] :: r :: rs else (c :: r) :: rs

def joinWith (sep : Char) : List (List Char) → List Char
  | [] => []
  | [f] => f
  | f :: fs => f ++ sep :: joinWith sep fs

/-- A parsed table: column names from the header, then the data rows. -/
structure Table where
  columns : List (List Char)
  rows : List (List (List Char))
  deriving DecidableEq

/-- Modelled from the spec: pd.read_csv, an external library the
notebook calls; "comma-separated values with a header row" — the first
line names the columns in order, every later line is a data row. -/
def read_csv (contents : List Char) : Table :=
  match splitOnChar '\x0a' contents with
  | [] => { columns := [], rows := [] }
  | header :: rest =>
    { columns := splitOnChar ',' header,
      rows := rest.map (splitOnChar ',') }

/-- Serialize a table: comma-separated fields, newline-separated lines,
header first. -/
def renderCSV (columns : List (List Char)) (rows : List (List (List Char))) : List Char :=
  joinWith '\x0a' (joinWith ',' columns :: rows.map (joinWith ','))

theorem splitOnChar_ne_nil (sep : Char) (l : List Char) : splitOnChar sep l ≠ [] := by
  cases l with
  | nil => simp [splitOnChar]
  | cons c cs =>
    simp only [splitOnChar]
    cases splitOnChar sep cs with
    | nil => simp
    | cons r rs => by_cases h : c = sep <;> simp [h]

theorem splitOnChar_no_sep (sep : Char) (f : List Char) (h : sep ∉ f) :
    splitOnChar sep f = [f] := by
  induction f with
  | nil => rfl
  | cons c cs ih =>
    simp only [List.mem_cons, not_or] at h
    have hcs : splitOnChar sep cs = [cs] := ih h.2
    have hc : ¬ c = sep := fun hc => h.1 hc.symm
    simp [splitOnChar, hcs, hc]

theorem splitOnChar_append_sep (sep : Char) (f rest : List Char) (h : sep ∉ f) :
    splitOnChar sep (f ++ sep :: rest) = f :: splitOnChar sep rest := by
  induction f with
  | nil =>
    simp only [List.nil_append, splitOnChar]
    cases hr : splitOnChar sep rest with
    | nil => exact absurd hr (splitOnChar_ne_nil sep rest)
    | cons r rs => simp
  | cons c cs ih =>
    simp only [List.mem_cons, not_or] at h
    have hcs := ih h.2
    have hc : ¬ c = sep := fun hc => h.1 hc.symm
    simp only [List.cons_append, splitOnChar, List.append_eq]
    rw [hcs]
    simp [hc]

theorem splitOnChar_joinWith (sep : Char) (fields : List (List Char))
    (hne : fields ≠ []) (h : ∀ f ∈ fields, sep ∉ f) :
    splitOnChar sep (joinWith sep fields) = fields := by
  induction fields with
  | nil => exact absurd rfl hne
  | cons f fs ih =>
    cases fs with
    | nil =>
      show splitOnChar sep (joinWith sep [f]) = [f]
      have : joinWith sep [f] = f := rfl
      rw [this]
      exact splitOnChar_no_sep sep f (h f (List.mem_cons_self f []))
    | cons f' fs' =>
      have hjoin : joinWith sep (f :: f' :: fs') = f ++ sep :: joinWith sep (f' :: fs') := rfl
      rw [hjoin, splitOnChar_append_sep sep f _ (h f (List.mem_cons_self f _))]
      rw [ih (by simp) (fun g hg => h g (List.mem_cons_of_mem f hg))]

theorem not_mem_joinWith (sep x : Char) (fields : List (List Char))
    (hx : x ≠ sep) (h : ∀ f ∈ fields, x ∉ f) : x ∉ joinWith sep fields := by
  induction fields with
  | nil => simp [joinWith]
  | cons f fs ih =>
    cases fs with
    | nil => exact h f (List.mem_cons_self f [])
    | cons f' fs' =>
      have : joinWith sep (f :: f' :: fs') = f ++ sep :: joinWith sep (f' :: fs') := rfl
      rw [this]
      simp only [List.mem_append, List.mem_cons, not_or]
      exact ⟨h f (List.mem_cons_self f _), hx,
        ih (fun g hg => h g (List.mem_cons_of_mem f hg))⟩

/-- Claim C7: parsing a CSV file with a header row yields a table whose
column list is exactly the header's names in header order and whose row
count is exactly the file's data-row count (fields free of separators,
header and rows nonempty). -/
theorem read_csv_round_trip (columns : List (List Char)) (rows : List (List (List Char)))
    (hcne : columns ≠ [])
    (hcols : ∀ f ∈ columns, ',' ∉ f ∧ '\x0a' ∉ f)
    (hrows : ∀ r ∈ rows, r ≠ [] ∧ ∀ f ∈ r, ',' ∉ f ∧ '\x0a' ∉ f) :
    (read_csv (renderCSV columns rows)).columns = columns ∧
    (read_csv (renderCSV columns rows)).rows.length = rows.length ∧
    (read_csv (renderCSV columns rows)).rows = rows := by
  have hheader : '\x0a' ∉ joinWith ',' columns :=
    not_mem_joinWith ',' '\x0a' columns (by decide) (fun f hf => (hcols f hf).2)
  have hlines : ∀ l ∈ (joinWith ',' columns :: rows.map (joinWith ',')), '\x0a' ∉ l := by
    intro l hl
    cases hl with
    | head => exact hheader
    | tail _ hl =>
      obtain ⟨r, hr, rfl⟩ := List.mem_map.mp hl
      exact not_mem_joinWith ',' '\x0a' r (by decide)
        (fun f hf => ((hrows r hr).2 f hf).2)
  have hsplit : splitOnChar '\x0a' (renderCSV columns rows) =
      joinWith ',' columns :: rows.map (joinWith ',') :=
    splitOnChar_joinWith '\x0a' _ (by simp) hlines
  have hhead : splitOnChar ',' (joinWith ',' columns) = columns :=
    splitOnChar_joinWith ',' columns hcne (fun f hf => (hcols f hf).1)
  have hdata : (rows.map (joinWith ',')).map (splitOnChar ',') = rows := by
    rw [List.map_map]
    have : ∀ r ∈ rows, splitOnChar ',' (joinWith ',' r) = r := fun r hr =>
      splitOnChar_joinWith ',' r (hrows r hr).1 (fun f hf => ((hrows r hr).2 f hf).1)
    calc rows.map (fun r => splitOnChar ',' (joinWith ',' r))
        = rows.map id := List.map_congr_left this
      _ = rows := List.map_id rows
  refine ⟨?_, ?_, ?_⟩ <;> simp [read_csv, hsplit, hhead, hdata]

theorem read_csv_round_trip_witness :
    (read_csv (renderCSV [['a'], ['b']] [[['1'], ['2']], [['3'], ['4']]])).columns =
        [['a'], ['b']] ∧
    (read_csv (renderCSV [['a'], ['b']] [[['1'], ['2']], [['3'], ['4']]])).rows.length = 2 := by
  have h := read_csv_round_trip [['a'], ['b']] [[['1'], ['2']], [['3'], ['4']]]
    (by decide) (by decide) (by decide)
  exact ⟨h.1, h.2.1⟩

/-!
Derived ratio features (`2-week2/2-problem-data-eda.ipynb`):

    housing["rooms_per_house"] = housing["total_rooms"] / housing["households"]
    housing["bedrooms_ratio"] = housing["total_bedrooms"] / housing["total_rooms"]
    housing["people_per_house"] = housing["population"] / housing["households"]

A DataFrame is a list of named columns; assignment replaces the column
of that name or appends a new one; `/` divides two columns row-wise.
Numeric entries are modelled as rationals: the claim is about the
determinism of recomputation, which does not depend on the numeric
representation.
-/

def getColList (name : String) : List (String × List Rat) → List Rat
  | [] => []
  | p :: ps => if p.1 = name then p.2 else getColList name ps

def setColList (name : String) (v : List Rat) : List (String × List Rat) → List (String × List Rat)
  | [] => [(name, v)]
  | p :: ps => if p.1 = name then (name, v) :: ps else p :: setColList name v ps

def containsCol (name : String) (l : List (String × List Rat)) : Bool :=
  l.any (fun p => p.1 = name)

structure DataFrame where
  cols : List (String × List Rat)
  deriving DecidableEq

def getCol (df : DataFrame) (name : String) : List Rat :=
  getColList name df.cols

def setCol (df : DataFrame) (name : String) (v : List Rat) : DataFrame :=
  ⟨setColList name v df.cols⟩

/-- Row-wise division of two columns. -/
def divSeries (a b : List Rat) : List Rat :=
  List.zipWith (fun x y => x / y) a b

/-- housing["rooms_per_house"] = housing["total_rooms"] / housing["households"] -/
def assignRoomsPerHouse (df : DataFrame) : DataFrame :=
  setCol df "rooms_per_house"
    (divSeries (getCol df "total_rooms") (getCol df "households"))

/-- housing["bedrooms_ratio"] = housing["total_bedrooms"] / housing["total_rooms"] -/
def assignBedroomsRatio (df : DataFrame) : DataFrame :=
  setCol df "bedrooms_ratio"
    (divSeries (getCol df "total_bedrooms") (getCol df "total_rooms"))

/-- housing["people_per_house"] = housing["population"] / housing["households"] -/
def assignPeoplePerHouse (df : DataFrame) : DataFrame :=
  setCol df "people_per_house"
    (divSeries (getCol df "population") (getCol df "households"))

/-- The three attribute-combination assignments of the EDA notebook, in
source order, each reading the frame left by the previous one. -/
def addRatioFeatures (df : DataFrame) : DataFrame :=
  assignPeoplePerHouse (assignBedroomsRatio (assignRoomsPerHouse df))

theorem getColList_setColList_ne (n m : String) (v : List Rat)
    (l : List (String × List Rat)) (h : ¬ n = m) :
    getColList m (setColList n v l) = getColList m l := by
  induction l with
  | nil => simp [setColList, getColList, h]
  | cons p ps ih =>
    by_cases hp : p.1 = n
    · simp [setColList, getColList, hp, h]
    · simp [setColList, getColList, hp, ih]

theorem getColList_setColList_eq (n : String) (v : List Rat)
    (l : List (String × List Rat)) :
    getColList n (setColList n v l) = v := by
  induction l with
  | nil => simp [setColList, getColList]
  | cons p ps ih =>
    by_cases hp : p.1 = n
    · simp [setColList, getColList, hp]
    · simp [setColList, getColList, hp, ih]

theorem containsCol_setColList_self (n : String) (v : List Rat)
    (l : List (String × List Rat)) :
    containsCol n (setColList n v l) = true := by
  induction l with
  | nil => simp [setColList, containsCol]
  | cons p ps ih =>
    by_cases hp : p.1 = n
    · simp [setColList, containsCol, hp]
    · simp only [setColList, if_neg hp]
      simp only [containsCol, List.any_cons] at ih ⊢
      simp [ih]

theorem containsCol_setColList_ne (n m : String) (v : List Rat)
    (l : List (String × List Rat)) (h : ¬ n = m) :
    containsCol m (setColList n v l) = containsCol m l := by
  induction l with
  | nil => simp [setColList, containsCol, h]
  | cons p ps ih =>
    by_cases hp : p.1 = n
    · simp [setColList, containsCol, hp, h]
    · simp only [setColList, if_neg hp]
      simp only [containsCol, List.any_cons] at ih ⊢
      simp [ih]

theorem setColList_absorb (n : String) (v : List Rat)
    (l : List (String × List Rat)) (hget : getColList n l = v)
    (hmem : containsCol n l = true) :
    setColList n v l = l := by
  induction l with
  | nil => simp [containsCol] at hmem
  | cons p ps ih =>
    by_cases hp : p.1 = n
    · simp only [getColList, if_pos hp] at hget
      simp only [setColList, if_pos hp]
      have : (n, v) = p := by
        rcases p with ⟨pn, pv⟩
        simp at hp hget
        simp [hp, hget]
      rw [this]
    · simp only [getColList, if_neg hp] at hget
      simp only [containsCol, List.any_cons] at hmem
      have hmem' : containsCol n ps = true := by
        rcases Bool.or_eq_true_iff.mp hmem with h1 | h1
        · exact absurd (by simpa using h1) hp
        · exact h1
      simp [setColList, if_neg hp, ih hget hmem']

theorem getCol_setCol_ne (df : DataFrame) (n m : String) (v : List Rat)
    (h : ¬ n = m) : getCol (setCol df n v) m = getCol df m :=
  getColList_setColList_ne n m v df.cols h

theorem getCol_setCol_eq (df : DataFrame) (n : String) (v : List Rat) :
    getCol (setCol df n v) n = v :=
  getColList_setColList_eq n v df.cols

theorem setCol_absorb (df : DataFrame) (n : String) (v : List Rat)
    (hget : getCol df n = v) (hmem : containsCol n df.cols = true) :
    setCol df n v = df := by
  have : setColList n v df.cols = df.cols := setColList_absorb n v df.cols hget hmem
  unfold setCol
  rw [this]

theorem getCol_addRatioFeatures_base (df : DataFrame) (s : String)
    (h1 : ¬ "rooms_per_house" = s) (h2 : ¬ "bedrooms_ratio" = s)
    (h3 : ¬ "people_per_house" = s) :
    getCol (addRatioFeatures df) s = getCol df s := by
  unfold addRatioFeatures assignPeoplePerHouse assignBedroomsRatio assignRoomsPerHouse
  rw [getCol_setCol_ne _ _ _ _ h3, getCol_setCol_ne _ _ _ _ h2,
    getCol_setCol_ne _ _ _ _ h1]

theorem getCol_addRatioFeatures_rooms (df : DataFrame) :
    getCol (addRatioFeatures df) "rooms_per_house" =
      divSeries (getCol df "total_rooms") (getCol df "households") := by
  unfold addRatioFeatures assignPeoplePerHouse assignBedroomsRatio assignRoomsPerHouse
  rw [getCol_setCol_ne _ _ _ _ (by decide), getCol_setCol_ne _ _ _ _ (by decide),
    getCol_setCol_eq]

theorem getCol_addRatioFeatures_bedrooms (df : DataFrame) :
    getCol (addRatioFeatures df) "bedrooms_ratio" =
      divSeries (getCol df "total_bedrooms") (getCol df "total_rooms") := by
  unfold addRatioFeatures assignPeoplePerHouse assignBedroomsRatio assignRoomsPerHouse
  rw [getCol_setCol_ne _ _ _ _ (by decide), getCol_setCol_eq,
    getCol_setCol_ne _ _ _ _ (by decide), getCol_setCol_ne _ _ _ _ (by decide)]

theorem getCol_addRatioFeatures_people (df : DataFrame) :
    getCol (addRatioFeatures df) "people_per_house" =
      divSeries (getCol df "population") (getCol df "households") := by
  unfold addRatioFeatures assignPeoplePerHouse assignBedroomsRatio assignRoomsPerHouse
  rw [getCol_setCol_eq,
    getCol_setCol_ne _ _ _ _ (by decide), getCol_setCol_ne _ _ _ _ (by decide),
    getCol_setCol_ne _ _ _ _ (by decide), getCol_setCol_ne _ _ _ _ (by decide)]

theorem containsCol_addRatioFeatures_rooms (df : DataFrame) :
    containsCol "rooms_per_house" (addRatioFeatures df).cols = true := by
  unfold addRatioFeatures assignPeoplePerHouse assignBedroomsRatio assignRoomsPerHouse setCol
  rw [containsCol_setColList_ne _ _ _ _ (by decide),
    containsCol_setColList_ne _ _ _ _ (by decide)]
  exact containsCol_setColList_self _ _ _

theorem containsCol_addRatioFeatures_bedrooms (df : DataFrame) :
    containsCol "bedrooms_ratio" (addRatioFeatures df).cols = true := by
  unfold addRatioFeatures assignPeoplePerHouse assignBedroomsRatio assignRoomsPerHouse setCol
  rw [containsCol_setColList_ne _ _ _ _ (by decide)]
  exact containsCol_setColList_self _ _ _

theorem containsCol_addRatioFeatures_people (df : DataFrame) :
    containsCol "people_per_house" (addRatioFeatures df).cols = true := by
  unfold addRatioFeatures assignPeoplePerHouse assignBedroomsRatio assignRoomsPerHouse setCol
  exact containsCol_setColList_self _ _ _

/-- Claim C8: the three row-wise ratio-feature assignments are idempotent:
running them a second time on the resulting frame recomputes each derived
column from the unchanged base columns and stores back identical values,
leaving the frame exactly as after the first run. -/
theorem ratio_features_idempotent (df : DataFrame) :
    addRatioFeatures (addRatioFeatures df) = addRatioFeatures df := by
  have g_tr := getCol_addRatioFeatures_base df "total_rooms"
    (by decide) (by decide) (by decide)
  have g_hh := getCol_addRatioFeatures_base df "households"
    (by decide) (by decide) (by decide)
  have g_tb := getCol_addRatioFeatures_base df "total_bedrooms"
    (by decide) (by decide) (by decide)
  have g_pop := getCol_addRatioFeatures_base df "population"
    (by decide) (by decide) (by decide)
  have g_r := getCol_addRatioFeatures_rooms df
  have g_b := getCol_addRatioFeatures_bedrooms df
  have g_p := getCol_addRatioFeatures_people df
  have m_r := containsCol_addRatioFeatures_rooms df
  have m_b := containsCol_addRatioFeatures_bedrooms df
  have m_p := containsCol_addRatioFeatures_people df
  generalize hD : addRatioFeatures df = D at g_tr g_hh g_tb g_pop g_r g_b g_p m_r m_b m_p ⊢
  have stepA : assignRoomsPerHouse D = D := by
    unfold assignRoomsPerHouse
    rw [g_tr, g_hh]
    exact setCol_absorb D _ _ g_r m_r
  have stepB : assignBedroomsRatio D = D := by
    unfold assignBedroomsRatio
    rw [g_tb, g_tr]
    exact setCol_absorb D _ _ g_b m_b
  have stepC : assignPeoplePerHouse D = D := by
    unfold assignPeoplePerHouse
    rw [g_pop, g_hh]
    exact setCol_absorb D _ _ g_p m_p
  show assignPeoplePerHouse (assignBedroomsRatio (assignRoomsPerHouse D)) = D
  rw [stepA, stepB, stepC]

/-!
Name resolution in `3-week3/4-encoding.ipynb`.  The one-hot demonstration
cell calls `LabelEncoder()`, but no cell of the notebook ever imports or
assigns the name `LabelEncoder` (the first cell imports OrdinalEncoder,
the demonstration cell imports OneHotEncoder).  At the statement level a
cell is a sequence of statements, each reading some names and binding
some names; Python raises NameError at the first statement that reads an
unbound name, and no later statement of the cell runs.
-/

/-- One Python statement: the global names its right-hand side reads and
the global names it binds. -/
structure Stmt where
  uses : List String
  binds : List String
  deriving DecidableEq, Repr

/-- Run a cell from an environment of bound names: the first statement
reading an unbound name stops the cell with a NameError carrying that
name; otherwise each statement adds its bindings. -/
def runStmts (env : List String) : List Stmt → Except String (List String)
  | [] => Except.ok env
  | s :: rest =>
    match s.uses.find? (fun u => !(env.contains u)) with
    | some u => Except.error u
    | none => runStmts (env ++ s.binds) rest

/-- Index of the statement at which a run of the cell raises NameError,
if any. -/
def firstFailure (env : List String) : List Stmt → Option Nat
  | [] => none
  | s :: rest =>
    match s.uses.find? (fun u => !(env.contains u)) with
    | some _ => some 0
    | none => (firstFailure (env ++ s.binds) rest).map (fun i => i + 1)

/-- The statements of the one-hot demonstration cell of
`4-encoding.ipynb`, in source order. -/
def oneHotDemoCell : List Stmt :=
  [ { uses := [], binds := ["np"] },
    { uses := [], binds := ["pd"] },
    { uses := [], binds := ["plt"] },
    { uses := [], binds := ["KMeans"] },
    { uses := [], binds := ["OneHotEncoder"] },
    { uses := [], binds := ["n_samples"] },
    { uses := ["np", "n_samples"], binds := ["sweet_juicy"] },
    { uses := ["np", "n_samples"], binds := ["not_sweet_not_juicy"] },
    { uses := ["np", "n_samples"], binds := ["colors_sweet_juicy"] },
    { uses := ["np", "n_samples"], binds := ["colors_not_sweet_not_juicy"] },
    { uses := ["np", "sweet_juicy", "not_sweet_not_juicy"], binds := ["X"] },
    { uses := ["np", "colors_sweet_juicy", "colors_not_sweet_not_juicy"],
      binds := ["colors"] },
    { uses := ["pd", "X"], binds := ["df"] },
    { uses := ["df", "colors"], binds := [] },
    { uses := ["OneHotEncoder"], binds := ["encoder"] },
    { uses := ["encoder", "df"], binds := ["colors_one_hot"] },
    { uses := ["pd", "colors_one_hot", "encoder"], binds := ["df_one_hot"] },
    { uses := ["pd", "df", "df_one_hot"], binds := ["df_combined"] },
    { uses := ["LabelEncoder"], binds := ["le1"] },
    { uses := ["df", "le1"], binds := [] },
    { uses := ["KMeans"], binds := ["kmeans_auto"] },
    { uses := ["df", "kmeans_auto"], binds := [] },
    { uses := ["KMeans"], binds := ["kmeans_one_hot"] },
    { uses := ["df_combined", "kmeans_one_hot"], binds := [] },
    { uses := ["plt"], binds := ["fig", "axes"] },
    { uses := ["axes", "df"], binds := [] },
    { uses := ["axes"], binds := [] },
    { uses := ["axes"], binds := [] },
    { uses := ["axes"], binds := [] },
    { uses := ["axes", "df_combined"], binds := [] },
    { uses := ["axes"], binds := [] },
    { uses := ["axes"], binds := [] },
    { uses := ["axes"], binds := [] },
    { uses := ["plt"], binds := [] } ]

/-- Every global name any cell of `4-encoding.ipynb` ever imports or
assigns (first cell: ordinal-encoding demo; second cell: this one-hot
demo; third cell: the sparse-output example; fourth cell: the
multi-column loop). -/
def encodingNotebookBoundNames : List String :=
  [ "np", "pd", "plt", "KMeans", "OrdinalEncoder",
    "n_samples", "sweet_juicy", "not_sweet_not_juicy",
    "colors_sweet_juicy", "colors_not_sweet_not_juicy", "X", "colors",
    "df", "le1", "color_mapping", "kmeans_auto", "kmeans_manual",
    "fig", "axes",
    "OneHotEncoder", "encoder", "colors_one_hot", "df_one_hot",
    "df_combined", "kmeans_one_hot",
    "encoder_sparse", "sparse_output",
    "df_transformed", "col", "one_hot_encoded", "one_hot_df" ]

/-- Index of the `le1 = LabelEncoder()` statement in the cell. -/
def labelEncoderIdx : Nat :=
  oneHotDemoCell.findIdx (fun s => s.uses.contains "LabelEncoder")

/-- Index of the first clustering statement (`kmeans_auto = KMeans(...)`). -/
def kmeansIdx : Nat :=
  oneHotDemoCell.findIdx (fun s => s.binds.contains "kmeans_auto")

/-- Claim C10: the one-hot demonstration cell never completes: the name
`LabelEncoder` is bound by no cell of the notebook, so from any
environment not binding it the cell stops with a NameError on
`LabelEncoder`, at the `le1 = LabelEncoder()` statement, which comes
before the first clustering statement. -/
theorem label_encoder_name_error (env0 : List String)
    (h : "LabelEncoder" ∉ env0) :
    runStmts env0 oneHotDemoCell = Except.error "LabelEncoder" ∧
    firstFailure env0 oneHotDemoCell = some labelEncoderIdx ∧
    labelEncoderIdx < kmeansIdx ∧
    encodingNotebookBoundNames.contains "LabelEncoder" = false := by
  refine ⟨?_, ?_, by decide, by decide⟩
  · simp [oneHotDemoCell, runStmts, h]
  · simp only [labelEncoderIdx]
    simp [oneHotDemoCell, firstFailure, h]
    decide

theorem label_encoder_name_error_witness :
    runStmts encodingNotebookBoundNames oneHotDemoCell =
      Except.error "LabelEncoder" :=
  (label_encoder_name_error encodingNotebookBoundNames (by decide)).1
